import Mathlib

/-!
Shallow embedding of the fake-news scraper repository.

Python values that flow through the scraper (JSON-decoded data, story
dictionaries) are modelled by the inductive type `Val`; Python dicts are
association lists `List (String × Val)` built from literals with distinct
keys, so first-match lookup coincides with Python dict lookup.
-/

/-- A Python value as used by the scraper: None, str, int, bool, list, dict. -/
inductive Val : Type where
  | vNone : Val
  | vStr (s : String) : Val
  | vInt (n : Int) : Val
  | vBool (b : Bool) : Val
  | vList (xs : List Val) : Val
  | vDict (fields : List (String × Val)) : Val

mutual

def Val.decEq : (a b : Val) → Decidable (a = b)
  | .vNone, .vNone => isTrue rfl
  | .vNone, .vStr _ => isFalse (fun h => Val.noConfusion h)
  | .vNone, .vInt _ => isFalse (fun h => Val.noConfusion h)
  | .vNone, .vBool _ => isFalse (fun h => Val.noConfusion h)
  | .vNone, .vList _ => isFalse (fun h => Val.noConfusion h)
  | .vNone, .vDict _ => isFalse (fun h => Val.noConfusion h)
  | .vStr _, .vNone => isFalse (fun h => Val.noConfusion h)
  | .vStr a, .vStr b =>
    match String.decEq a b with
    | isTrue h => isTrue (by rw [h])
    | isFalse h => isFalse (fun hh => Val.noConfusion hh (fun he => h he))
  | .vStr _, .vInt _ => isFalse (fun h => Val.noConfusion h)
  | .vStr _, .vBool _ => isFalse (fun h => Val.noConfusion h)
  | .vStr _, .vList _ => isFalse (fun h => Val.noConfusion h)
  | .vStr _, .vDict _ => isFalse (fun h => Val.noConfusion h)
  | .vInt _, .vNone => isFalse (fun h => Val.noConfusion h)
  | .vInt _, .vStr _ => isFalse (fun h => Val.noConfusion h)
  | .vInt a, .vInt b =>
    match Int.instDecidableEq a b with
    | isTrue h => isTrue (by rw [h])
    | isFalse h => isFalse (fun hh => Val.noConfusion hh (fun he => h he))
  | .vInt _, .vBool _ => isFalse (fun h => Val.noConfusion h)
  | .vInt _, .vList _ => isFalse (fun h => Val.noConfusion h)
  | .vInt _, .vDict _ => isFalse (fun h => Val.noConfusion h)
  | .vBool _, .vNone => isFalse (fun h => Val.noConfusion h)
  | .vBool _, .vStr _ => isFalse (fun h => Val.noConfusion h)
  | .vBool _, .vInt _ => isFalse (fun h => Val.noConfusion h)
  | .vBool a, .vBool b =>
    match Bool.decEq a b with
    | isTrue h => isTrue (by rw [h])
    | isFalse h => isFalse (fun hh => Val.noConfusion hh (fun he => h he))
  | .vBool _, .vList _ => isFalse (fun h => Val.noConfusion h)
  | .vBool _, .vDict _ => isFalse (fun h => Val.noConfusion h)
  | .vList _, .vNone => isFalse (fun h => Val.noConfusion h)
  | .vList _, .vStr _ => isFalse (fun h => Val.noConfusion h)
  | .vList _, .vInt _ => isFalse (fun h => Val.noConfusion h)
  | .vList _, .vBool _ => isFalse (fun h => Val.noConfusion h)
  | .vList a, .vList b =>
    match valListDecEq a b with
    | isTrue h => isTrue (by rw [h])
    | isFalse h => isFalse (fun hh => Val.noConfusion hh (fun he => h he))
  | .vList _, .vDict _ => isFalse (fun h => Val.noConfusion h)
  | .vDict _, .vNone => isFalse (fun h => Val.noConfusion h)
  | .vDict _, .vStr _ => isFalse (fun h => Val.noConfusion h)
  | .vDict _, .vInt _ => isFalse (fun h => Val.noConfusion h)
  | .vDict _, .vBool _ => isFalse (fun h => Val.noConfusion h)
  | .vDict _, .vList _ => isFalse (fun h => Val.noConfusion h)
  | .vDict a, .vDict b =>
    match valFieldsDecEq a b with
    | isTrue h => isTrue (by rw [h])
    | isFalse h => isFalse (fun hh => Val.noConfusion hh (fun he => h he))

def valListDecEq : (a b : List Val) → Decidable (a = b)
  | [], [] => isTrue rfl
  | [], _ :: _ => isFalse (fun h => List.noConfusion h)
  | _ :: _, [] => isFalse (fun h => List.noConfusion h)
  | a :: as, b :: bs =>
    match Val.decEq a b, valListDecEq as bs with
    | isTrue h1, isTrue h2 => isTrue (by rw [h1, h2])
    | isFalse h1, _ => isFalse (fun h => List.noConfusion h (fun hh _ => h1 hh))
    | _, isFalse h2 => isFalse (fun h => List.noConfusion h (fun _ ht => h2 ht))

def valFieldsDecEq : (a b : List (String × Val)) → Decidable (a = b)
  | [], [] => isTrue rfl
  | [], _ :: _ => isFalse (fun h => List.noConfusion h)
  | _ :: _, [] => isFalse (fun h => List.noConfusion h)
  | (k1, v1) :: as, (k2, v2) :: bs =>
    match String.decEq k1 k2, Val.decEq v1 v2, valFieldsDecEq as bs with
    | isTrue h1, isTrue h2, isTrue h3 => isTrue (by rw [h1, h2, h3])
    | isFalse h1, _, _ =>
      isFalse (fun h => List.noConfusion h (fun hp _ => h1 (congrArg Prod.fst hp)))
    | _, isFalse h2, _ =>
      isFalse (fun h => List.noConfusion h (fun hp _ => h2 (congrArg Prod.snd hp)))
    | _, _, isFalse h3 =>
      isFalse (fun h => List.noConfusion h (fun _ ht => h3 ht))

end

instance : DecidableEq Val := Val.decEq

/-- A Python dict, as an association list (literal construction order). -/
abbrev PyDict := List (String × Val)

/-- `d[k]` / `d.get(k)` lookup: first matching key. -/
def dget : PyDict → String → Option Val
  | [], _ => none
  | (k, v) :: rest, key => if k = key then some v else dget rest key

/-- `d.get(k, default)`. -/
def dgetD (d : PyDict) (key : String) (default : Val) : Val :=
  (dget d key).getD default

/-- Python truthiness of a value (`if x:`). -/
def pyTruthy : Val → Bool
  | .vNone => false
  | .vStr s => !s.data.isEmpty
  | .vInt n => n != 0
  | .vBool b => b
  | .vList xs => !xs.isEmpty
  | .vDict fs => !fs.isEmpty

/-- Python `str(x)` for the scalar values the scraper interpolates into
f-strings.  Containers get a bracketed rendering; every value that reaches an
f-string in the analysed code paths is a `str`, for which this is exact. -/
def pyStr : Val → String
  | .vNone => "None"
  | .vStr s => s
  | .vInt n => toString n
  | .vBool b => if b then "True" else "False"
  | .vList _ => "[...]"
  | .vDict _ => "\x7b...\x7d"

/-- Python dict merge `\x7b**a, **b\x7d`: keys of `a` in order (values taken
from `b` when `b` also has the key), then keys only in `b`, in order. -/
def pyMerge (a b : PyDict) : PyDict :=
  a.map (fun kv => (kv.1, (dget b kv.1).getD kv.2)) ++
    b.filter (fun kv => (dget a kv.1).isNone)

theorem dget_append (a b : PyDict) (k : String) :
    dget (a ++ b) k = ((dget a k).orElse (fun _ => dget b k)) := by
  induction a with
  | nil => simp [dget]
  | cons kv rest ih =>
    by_cases h : kv.1 = k
    · simp [dget, h, Option.orElse]
    · simpa [dget, h] using ih

theorem dget_map_override (a b : PyDict) (k : String) :
    dget (a.map (fun kv => (kv.1, (dget b kv.1).getD kv.2))) k =
      (dget a k).map (fun v => (dget b k).getD v) := by
  induction a with
  | nil => simp [dget]
  | cons kv rest ih =>
    by_cases h : kv.1 = k
    · subst h; simp [dget]
    · simp [dget, h, ih]

theorem dget_filter_not_in (a b : PyDict) (k : String) (h : (dget a k).isSome) :
    dget (b.filter (fun kv => (dget a kv.1).isNone)) k = none := by
  induction b with
  | nil => simp [dget]
  | cons kv rest ih =>
    by_cases hk : kv.1 = k
    · subst hk
      simp only [List.filter]
      rw [Option.isSome_iff_exists] at h
      obtain ⟨v, hv⟩ := h
      simp [hv, ih]
    · simp only [List.filter]
      cases hdec : (dget a kv.1).isNone <;> simp [hdec, dget, hk, ih]

/-- Characters stripped by Python str.strip() for the ASCII range. -/
def isPySpace (c : Char) : Bool :=
  c = ' ' || c = '\t' || c = '\n' || c = '\x0d' || c = '\x0b' || c = '\x0c'

/-- str.strip() on a character list: drop whitespace at both ends. -/
def stripChars (l : List Char) : List Char :=
  ((l.dropWhile isPySpace).reverse.dropWhile isPySpace).reverse

/-- Python str.strip(). -/
def pyStrip (s : String) : String := ⟨stripChars s.data⟩

/-- Scan the characters after a literal < for the shortest match of the
regex fragment [^<]+? followed by >: at least one non-< character, ending at
the first > encountered.  Returns the remainder after the closing >. -/
def scanTagAux : List Char → Option (List Char)
  | [] => none
  | c :: rest =>
    if c = '>' then some rest
    else if c = '<' then none
    else scanTagAux rest

def scanTag : List Char → Option (List Char)
  | [] => none
  | c :: rest => if c = '<' then none else scanTagAux rest

theorem scanTagAux_length {l rem : List Char} (h : scanTagAux l = some rem) :
    rem.length < l.length := by
  induction l with
  | nil => simp [scanTagAux] at h
  | cons c rest ih =>
    by_cases h1 : c = '>'
    · simp [scanTagAux, h1] at h
      subst h
      simp
    · by_cases h2 : c = '<'
      · simp [scanTagAux, h1, h2] at h
      · simp [scanTagAux, h1, h2] at h
        exact Nat.lt_succ_of_lt (ih h)

theorem scanTag_length {l rem : List Char} (h : scanTag l = some rem) :
    rem.length < l.length := by
  cases l with
  | nil => simp [scanTag] at h
  | cons c rest =>
    by_cases h2 : c = '<'
    · simp [scanTag, h2] at h
    · simp [scanTag, h2] at h
      exact Nat.lt_succ_of_lt (scanTagAux_length h)

/-- re.sub(r"<[^<]+?>", "", text): delete every non-overlapping,
left-to-right, lazy match of an angle-bracket tag.  Fuel-indexed so the
recursion is structural; each step consumes at least one character, so fuel
equal to the input length never runs out (scanTag_length). -/
def stripTagsFuel : Nat → List Char → List Char
  | _, [] => []
  | 0, l => l
  | fuel + 1, c :: rest =>
    if c = '<' then
      match scanTag rest with
      | some rem => stripTagsFuel fuel rem
      | none => c :: stripTagsFuel fuel rest
    else c :: stripTagsFuel fuel rest

def stripTags (l : List Char) : List Char := stripTagsFuel l.length l

/-- create_slug_from_url: the part of the URL after the last slash, cut at
the first question mark. -/
def createSlugFromUrl (url : String) : String :=
  ⟨((url.data.reverse.takeWhile (fun c => c ≠ '/')).reverse).takeWhile
    (fun c => c ≠ '?')⟩

/-- The extension part of os.path.splitext: the suffix of the basename from
its last dot, unless every character before that dot is itself a dot. -/
def splitextExt (s : List Char) : List Char :=
  let base := (s.reverse.takeWhile (fun c => c ≠ '/')).reverse
  let lead := (base.takeWhile (fun c => c = '.')).length
  let after := base.reverse.takeWhile (fun c => c ≠ '.')
  if after.length < base.length ∧ lead ≤ base.length - after.length - 1 then
    '.' :: after.reverse
  else []

/-- Extension selection in download_image: splitext of the URL cut at the
first question mark; empty or longer than 5 characters falls back to jpg. -/
def fileExtensionOf (imageUrl : String) : String :=
  let ext := splitextExt (imageUrl.data.takeWhile (fun c => c ≠ '?'))
  if ext.isEmpty || ext.length > 5 then ".jpg" else ⟨ext⟩

/-- os.path.join over a list of components (posix). -/
def joinPath : List String → String
  | [] => ""
  | [p] => p
  | p :: rest => p ++ "/" ++ joinPath rest

/-- os.path.relpath(p, base) for the paths this program constructs, which
always lie strictly below base. -/
def pyRelpath (p base : String) : String :=
  if (base ++ "/").data.isPrefixOf p.data then ⟨p.data.drop (base.length + 1)⟩
  else p

/-- Python str.lower() (ASCII case mapping). -/
def pyLower (s : String) : String := ⟨s.data.map Char.toLower⟩

/-- Lookup after a Python dict merge: `b` wins on shared keys. -/
theorem dget_pyMerge (a b : PyDict) (k : String) :
    dget (pyMerge a b) k =
      match dget b k with
      | some v => some v
      | none => dget a k := by
  unfold pyMerge
  rw [dget_append, dget_map_override]
  cases hb : dget b k with
  | some v =>
    cases ha : dget a k with
    | some w => simp [ha, hb, Option.orElse]
    | none =>
      have : (dget (b.filter (fun kv => (dget a kv.1).isNone)) k) = dget b k := by
        induction b with
        | nil => simp
        | cons kv rest ih =>
          by_cases hk : kv.1 = k
          · subst hk; simp [List.filter, ha, dget]
          · simp only [List.filter]
            cases hdec : (dget a kv.1).isNone <;>
              simp_all [dget, hk]
      simp [ha, Option.orElse, this, hb]
  | none =>
    cases ha : dget a k with
    | some w => simp [ha, hb, Option.orElse]
    | none =>
      have : (dget (b.filter (fun kv => (dget a kv.1).isNone)) k) = dget b k := by
        induction b with
        | nil => simp
        | cons kv rest ih =>
          by_cases hk : kv.1 = k
          · subst hk; simp [List.filter, ha, dget]
          · simp only [List.filter]
            cases hdec : (dget a kv.1).isNone <;>
              simp_all [dget, hk]
      simp [ha, Option.orElse, this, hb]

/-! ## MediaCache: BaseNewsScraper.download_image / download_images

The filesystem is an association list from path to byte content (newest
write first); the HTTP layer is an oracle from URL to a fetch outcome.  A
streamed response that aborts mid-copy models a requests read error raised
inside shutil.copyfileobj: the bytes written before the error stay in the
opened file, and the except-branch of download_image returns None without
deleting them. -/

/-- Filesystem state: path to byte content, newest write first. -/
abbrev FS := List (String × List Nat)

def fsGet : FS → String → Option (List Nat)
  | [], _ => none
  | (p, c) :: rest, q => if p = q then some c else fsGet rest q

def fsSet (fs : FS) (p : String) (content : List Nat) : FS := (p, content) :: fs

/-- Outcome of one streamed GET: a transport error caught in make_request,
or a stream delivering `bytes` and then optionally raising mid-copy. -/
inductive FetchResult where
  | transportErr : FetchResult
  | stream (bytes : List Nat) (aborts : Bool) : FetchResult
deriving DecidableEq

/-- The target path computed by download_image:
data/images/[subdirectory/]slug/name+ext.  An empty subdirectory string is
falsy in Python and is skipped like None. -/
def diFilepath (imageUrl slug imageName : String) (subdirectory : Option String) :
    String :=
  let baseDir := ["data", "images"] ++
    (match subdirectory with
     | some s => if s.isEmpty then [] else [s]
     | none => []) ++ [slug]
  joinPath (baseDir ++ [imageName ++ fileExtensionOf imageUrl])

/-- BaseNewsScraper.download_image.  Returns (result, filesystem after the
call, number of network fetches issued).  Directory creation has no
observable effect here and is not modelled. -/
def downloadImage (fetch : String → FetchResult) (fs : FS)
    (imageUrl slug imageName : String) (subdirectory : Option String) :
    Option String × FS × Nat :=
  let filepath := diFilepath imageUrl slug imageName subdirectory
  if (fsGet fs filepath).isSome then
    (some (pyRelpath filepath "data"), fs, 0)
  else
    match fetch imageUrl with
    | .transportErr => (none, fs, 1)
    | .stream bytes aborts =>
      let fs1 := fsSet fs filepath bytes
      if aborts then (none, fs1, 1)
      else (some (pyRelpath filepath "data"), fs1, 1)

/-- BaseNewsScraper.download_images: sequential downloads named image_1,
image_2, ... collecting the successful local paths. -/
def downloadImagesGo (fetch : String → FetchResult) (fs : FS)
    (imageUrls : List String) (slug : String) (subdirectory : Option String)
    (i : Nat) : List String × FS × Nat :=
  match imageUrls with
  | [] => ([], fs, 0)
  | url :: rest =>
    let r := downloadImage fetch fs url slug ("image_" ++ toString (i + 1))
      subdirectory
    let tail := downloadImagesGo fetch r.2.1 rest slug subdirectory (i + 1)
    (match r.1 with
     | some p => p :: tail.1
     | none => tail.1, tail.2.1, r.2.2 + tail.2.2)

def downloadImages (fetch : String → FetchResult) (fs : FS)
    (imageUrls : List String) (slug : String) (subdirectory : Option String) :
    List String × FS × Nat :=
  downloadImagesGo fetch fs imageUrls slug subdirectory 0

theorem fsGet_fsSet (fs : FS) (p : String) (c : List Nat) :
    fsGet (fsSet fs p c) p = some c := by
  simp [fsGet, fsSet]

/-- Concrete fetch oracle that always delivers two bytes successfully. -/
def fetchOk2 : String → FetchResult := fun _ => .stream [1, 2] false

/-- Concrete fetch oracle whose stream raises after delivering one byte. -/
def fetchAbort1 : String → FetchResult := fun _ => .stream [7] true

theorem downloadImage_hit (fetch : String → FetchResult) (fs : FS)
    (imageUrl slug imageName : String) (subdirectory : Option String)
    (h : (fsGet fs (diFilepath imageUrl slug imageName subdirectory)).isSome) :
    downloadImage fetch fs imageUrl slug imageName subdirectory =
      (some (pyRelpath (diFilepath imageUrl slug imageName subdirectory) "data"),
       fs, 0) := by
  unfold downloadImage
  simp [h]

theorem downloadImage_miss (fetch : String → FetchResult) (fs : FS)
    (imageUrl slug imageName : String) (subdirectory : Option String)
    (h : fsGet fs (diFilepath imageUrl slug imageName subdirectory) = none) :
    downloadImage fetch fs imageUrl slug imageName subdirectory =
      match fetch imageUrl with
      | .transportErr => (none, fs, 1)
      | .stream bytes aborts =>
        if aborts then
          (none,
           fsSet fs (diFilepath imageUrl slug imageName subdirectory) bytes, 1)
        else
          (some (pyRelpath (diFilepath imageUrl slug imageName subdirectory)
             "data"),
           fsSet fs (diFilepath imageUrl slug imageName subdirectory) bytes,
           1) := by
  unfold downloadImage
  simp [h]

/-- C1: media-cache idempotence.  If the target file is initially absent and
a first download_image call succeeds (so it wrote the file), a second call
with identical arguments issues zero network fetches, leaves the filesystem
unchanged, and returns the same local path. -/
theorem mediaCache_idempotent
    (fetch : String → FetchResult) (fs : FS)
    (imageUrl slug imageName : String) (subdirectory : Option String)
    (p : String)
    (hmiss : fsGet fs (diFilepath imageUrl slug imageName subdirectory) = none)
    (hsucc : (downloadImage fetch fs imageUrl slug imageName subdirectory).1 =
      some p) :
    downloadImage fetch
        (downloadImage fetch fs imageUrl slug imageName subdirectory).2.1
        imageUrl slug imageName subdirectory =
      (some p,
       (downloadImage fetch fs imageUrl slug imageName subdirectory).2.1, 0) := by
  rw [downloadImage_miss fetch fs imageUrl slug imageName subdirectory hmiss]
    at hsucc ⊢
  revert hsucc
  cases hf : fetch imageUrl with
  | transportErr => intro hsucc; simp at hsucc
  | stream bytes aborts =>
    cases aborts with
    | true => intro hsucc; simp at hsucc
    | false =>
      intro hsucc
      simp only [Bool.false_eq_true, if_false] at hsucc ⊢
      have hp : p = pyRelpath (diFilepath imageUrl slug imageName subdirectory)
          "data" := by
        simpa using hsucc.symm
      rw [downloadImage_hit fetch _ imageUrl slug imageName subdirectory
        (by simp [fsGet_fsSet])]
      simp [hp]

theorem mediaCache_idempotent_witness :
    fsGet [] (diFilepath "http://x/a.jpg" "s1" "hero" none) = none ∧
    (downloadImage fetchOk2 [] "http://x/a.jpg" "s1" "hero" none).1 =
      some "images/s1/hero.jpg" ∧
    downloadImage fetchOk2
        (downloadImage fetchOk2 [] "http://x/a.jpg" "s1" "hero" none).2.1
        "http://x/a.jpg" "s1" "hero" none =
      (some "images/s1/hero.jpg",
       (downloadImage fetchOk2 [] "http://x/a.jpg" "s1" "hero" none).2.1, 0) :=
  ⟨by decide, by decide,
   mediaCache_idempotent fetchOk2 [] "http://x/a.jpg" "s1" "hero" none
     "images/s1/hero.jpg" (by decide) (by decide)⟩

/-- C3: a stream that raises inside shutil.copyfileobj makes download_image
return None, yet the partially written file stays at the target path, and a
second identical call returns that partial file as a cache hit with zero
fetches — the operation is not atomic on write errors. -/
theorem downloadImage_abort_leaves_partial :
    (downloadImage fetchAbort1 [] "http://x/a.jpg" "s1" "hero" none).1 = none ∧
    fsGet (downloadImage fetchAbort1 [] "http://x/a.jpg" "s1" "hero" none).2.1
        (diFilepath "http://x/a.jpg" "s1" "hero" none) = some [7] ∧
    downloadImage fetchAbort1
        (downloadImage fetchAbort1 [] "http://x/a.jpg" "s1" "hero" none).2.1
        "http://x/a.jpg" "s1" "hero" none =
      (some "images/s1/hero.jpg",
       (downloadImage fetchAbort1 [] "http://x/a.jpg" "s1" "hero" none).2.1,
       0) := by
  refine ⟨by decide, by decide, by decide⟩

/-! ## DetailFetchOrchestrator: BaseNewsScraper.scrape_all_details

The per-story detail scrape (scrape_story_details) is the collaborator
boundary: it is modelled as an oracle from the story URL value to an
optional detail dict (None = transport error or missing detail structure).
The progress print dereferences story["headline"] and the fetch call
dereferences story["url"]; a missing key raises KeyError and aborts the
whole run, which the embedding models as a None result.  time.sleep has no
observable effect and is not modelled. -/

/-- Python slice l[:n] for an integer n (negative counts from the end). -/
def pySliceTo (l : List α) (n : Int) : List α :=
  if 0 ≤ n then l.take n.toNat
  else l.take (l.length - min l.length (-n).toNat)

def scrapeAllDetailsGo (fetchDetails : Val → Option PyDict) :
    List PyDict → Option (List PyDict)
  | [] => some []
  | story :: rest => do
    let _ ← dget story "headline"
    let url ← dget story "url"
    let tail ← scrapeAllDetailsGo fetchDetails rest
    match fetchDetails url with
    | some details => some (pyMerge story details :: tail)
    | none => some tail

/-- BaseNewsScraper.scrape_all_details.  `if max_stories:` is Python
truthiness, so None and 0 both leave the list untruncated. -/
def scrapeAllDetails (fetchDetails : Val → Option PyDict)
    (storyList : List PyDict) (maxStories : Option Int) :
    Option (List PyDict) :=
  let stories :=
    match maxStories with
    | some n => if n ≠ 0 then pySliceTo storyList n else storyList
    | none => storyList
  scrapeAllDetailsGo fetchDetails stories

/-- C7: per-record failure isolation.  When every record carries the
headline and url keys, the run never aborts and the output is exactly the
in-order merge of each record whose detail fetch succeeded; a record whose
fetch fails contributes nothing and later records are still processed. -/
theorem scrapeAllDetails_failure_isolation
    (fetchDetails : Val → Option PyDict) (stories : List PyDict)
    (h : ∀ s ∈ stories, (dget s "headline").isSome ∧ (dget s "url").isSome) :
    scrapeAllDetails fetchDetails stories none =
      some (stories.filterMap (fun s =>
        (dget s "url").bind (fun u => (fetchDetails u).map (pyMerge s)))) := by
  unfold scrapeAllDetails
  induction stories with
  | nil => simp [scrapeAllDetailsGo]
  | cons s rest ih =>
    obtain ⟨hh, hu⟩ := h s (by simp)
    have hrest := ih (fun x hx => h x (List.mem_cons_of_mem _ hx))
    obtain ⟨hv, hhv⟩ := Option.isSome_iff_exists.mp hh
    obtain ⟨uv, huv⟩ := Option.isSome_iff_exists.mp hu
    cases hf : fetchDetails uv <;>
      simp_all [scrapeAllDetailsGo, List.filterMap_cons]

def exSuccessStory : PyDict :=
  [("headline", Val.vStr "h1"), ("slug", Val.vStr "a"), ("url", Val.vStr "u1")]

def exFailStory : PyDict :=
  [("headline", Val.vStr "h2"), ("slug", Val.vStr "b"), ("url", Val.vStr "u2")]

def exLastStory : PyDict :=
  [("headline", Val.vStr "h3"), ("slug", Val.vStr "c"), ("url", Val.vStr "u3")]

/-- Oracle: the detail fetch for url u2 fails, others succeed. -/
def exFetchDetails : Val → Option PyDict := fun u =>
  if u = Val.vStr "u2" then none
  else some [("headline", Val.vStr "dh"), ("description", Val.vStr "body")]

theorem scrapeAllDetails_failure_isolation_witness :
    (∀ s ∈ [exSuccessStory, exFailStory, exLastStory],
      (dget s "headline").isSome ∧ (dget s "url").isSome) ∧
    scrapeAllDetails exFetchDetails [exSuccessStory, exFailStory, exLastStory]
        none =
      some ([exSuccessStory, exFailStory, exLastStory].filterMap (fun s =>
        (dget s "url").bind (fun u => (exFetchDetails u).map (pyMerge s)))) :=
  ⟨by decide,
   scrapeAllDetails_failure_isolation exFetchDetails
     [exSuccessStory, exFailStory, exLastStory] (by decide)⟩

/-- Oracle used in the limit=0 counterexample: every detail fetch succeeds. -/
def exFetchAlways : Val → Option PyDict :=
  fun _ => some [("description", Val.vStr "d")]

/-- C6 counterexample: with limit = 0 the code processes ALL records, not
zero of them — `if max_stories:` treats 0 as falsy and skips truncation, so
on a one-record list the output is the merged record, not the empty list. -/
theorem scrapeAllDetails_limit_zero_processes_all :
    scrapeAllDetails exFetchAlways [exSuccessStory] (some 0) =
      scrapeAllDetails exFetchAlways [exSuccessStory] none ∧
    scrapeAllDetails exFetchAlways [exSuccessStory] (some 0) ≠ some [] := by
  refine ⟨by decide, by decide⟩

/-- C6 amended: a provided POSITIVE limit truncates the record sequence
before the first fetch (the run equals the unlimited run on the prefix);
a limit of 0, like None, disables truncation and every record is processed. -/
theorem scrapeAllDetails_limit_truncates
    (fetchDetails : Val → Option PyDict) (stories : List PyDict) :
    (∀ n : Int, 0 < n →
      scrapeAllDetails fetchDetails stories (some n) =
        scrapeAllDetails fetchDetails (stories.take n.toNat) none) ∧
    scrapeAllDetails fetchDetails stories (some 0) =
      scrapeAllDetails fetchDetails stories none := by
  constructor
  · intro n hn
    unfold scrapeAllDetails pySliceTo
    have hne : n ≠ 0 := by omega
    simp [hne, Int.le_of_lt hn]
  · unfold scrapeAllDetails
    simp

theorem scrapeAllDetails_limit_truncates_witness :
    (0 : Int) < 1 ∧
    scrapeAllDetails exFetchAlways [exSuccessStory, exFailStory] (some 1) =
      scrapeAllDetails exFetchAlways
        ([exSuccessStory, exFailStory].take (Int.toNat 1)) none :=
  ⟨by decide,
   (scrapeAllDetails_limit_truncates exFetchAlways
     [exSuccessStory, exFailStory]).1 1 (by decide)⟩

/-! ## Deduplicator: ProthomAloScraper._remove_duplicate_stories

`if story and story["slug"] not in seen_slugs:` short-circuits on a falsy
(empty) dict; a non-empty dict without a slug key raises KeyError (modelled
as None).  The seen-set is a list of slug values with membership lookup. -/

def removeDuplicateStoriesGo : List PyDict → List Val → Option (List PyDict)
  | [], _ => some []
  | story :: rest, seen =>
    if story = [] then removeDuplicateStoriesGo rest seen
    else
      match dget story "slug" with
      | none => none
      | some sl =>
        if sl ∈ seen then removeDuplicateStoriesGo rest seen
        else (removeDuplicateStoriesGo rest (sl :: seen)).map
          (fun tail => story :: tail)

def removeDuplicateStories (stories : List PyDict) : Option (List PyDict) :=
  removeDuplicateStoriesGo stories []

/-- The claim side of C2, written from the spec words: the subsequence of
first occurrences of each slug, in original order. -/
def firstOccurrencesBySlug : List PyDict → List PyDict
  | [] => []
  | s :: rest =>
    s :: firstOccurrencesBySlug
      (rest.filter (fun x => decide (dget x "slug" ≠ dget s "slug")))
termination_by l => l.length
decreasing_by
  simp only [List.length_cons]
  exact Nat.lt_succ_of_le (List.length_filter_le _ _)

theorem firstOccurrencesBySlug_sublist (l : List PyDict) :
    (firstOccurrencesBySlug l).Sublist l := by
  have H : ∀ n (l : List PyDict), l.length ≤ n →
      (firstOccurrencesBySlug l).Sublist l := by
    intro n
    induction n with
    | zero =>
      intro l hl
      cases l with
      | nil => simp [firstOccurrencesBySlug]
      | cons s rest => simp at hl
    | succ n ih =>
      intro l hl
      cases l with
      | nil => simp [firstOccurrencesBySlug]
      | cons s rest =>
        rw [firstOccurrencesBySlug]
        refine List.Sublist.cons₂ s ?_
        exact (ih _ (le_trans (List.length_filter_le _ _)
          (Nat.le_of_succ_le_succ hl))).trans (List.filter_sublist rest)
  exact H l.length l le_rfl

theorem firstOccurrencesBySlug_slugs_nodup (l : List PyDict) :
    ((firstOccurrencesBySlug l).map (fun s => dget s "slug")).Nodup := by
  have H : ∀ n (l : List PyDict), l.length ≤ n →
      ((firstOccurrencesBySlug l).map (fun s => dget s "slug")).Nodup := by
    intro n
    induction n with
    | zero =>
      intro l hl
      cases l with
      | nil => simp [firstOccurrencesBySlug]
      | cons s rest => simp at hl
    | succ n ih =>
      intro l hl
      cases l with
      | nil => simp [firstOccurrencesBySlug]
      | cons s rest =>
        rw [firstOccurrencesBySlug]
        simp only [List.map_cons, List.nodup_cons]
        constructor
        · intro hmem
          obtain ⟨x, hx, hxs⟩ := List.mem_map.mp hmem
          have hxf : x ∈ rest.filter
              (fun x => decide (dget x "slug" ≠ dget s "slug")) :=
            (firstOccurrencesBySlug_sublist _).subset hx
          have := List.of_mem_filter hxf
          simp at this
          exact this hxs
        · exact ih _ (le_trans (List.length_filter_le _ _)
            (Nat.le_of_succ_le_succ hl))
  exact H l.length l le_rfl

theorem removeDuplicateStoriesGo_eq (stories : List PyDict) (seen : List Val)
    (h : ∀ s ∈ stories, (dget s "slug").isSome) :
    removeDuplicateStoriesGo stories seen =
      some (firstOccurrencesBySlug (stories.filter
        (fun s => decide (((dget s "slug").getD Val.vNone) ∉ seen)))) := by
  induction stories generalizing seen with
  | nil => simp [removeDuplicateStoriesGo, firstOccurrencesBySlug]
  | cons s rest ih =>
    obtain ⟨sl, hsl⟩ := Option.isSome_iff_exists.mp (h s (by simp))
    have hne : s ≠ [] := by
      intro he
      subst he
      simp [dget] at hsl
    have hrest : ∀ x ∈ rest, (dget x "slug").isSome :=
      fun x hx => h x (List.mem_cons_of_mem _ hx)
    by_cases hmem : sl ∈ seen
    · rw [show removeDuplicateStoriesGo (s :: rest) seen =
          removeDuplicateStoriesGo rest seen by
        simp [removeDuplicateStoriesGo, hne, hsl, hmem]]
      rw [ih seen hrest]
      have hdrop : (s :: rest).filter
          (fun x => decide (((dget x "slug").getD Val.vNone) ∉ seen)) =
          rest.filter
            (fun x => decide (((dget x "slug").getD Val.vNone) ∉ seen)) := by
        simp [List.filter, hsl, hmem]
      rw [hdrop]
    · rw [show removeDuplicateStoriesGo (s :: rest) seen =
          (removeDuplicateStoriesGo rest (sl :: seen)).map
            (fun tail => s :: tail) by
        simp [removeDuplicateStoriesGo, hne, hsl, hmem]]
      rw [ih (sl :: seen) hrest]
      have hkeep : (s :: rest).filter
          (fun x => decide (((dget x "slug").getD Val.vNone) ∉ seen)) =
          s :: rest.filter
            (fun x => decide (((dget x "slug").getD Val.vNone) ∉ seen)) := by
        simp [List.filter, hsl, hmem]
      rw [hkeep, firstOccurrencesBySlug]
      have hmerge : (rest.filter
            (fun x => decide (((dget x "slug").getD Val.vNone) ∉ seen))).filter
          (fun x => decide (dget x "slug" ≠ dget s "slug")) =
          rest.filter
            (fun x => decide (((dget x "slug").getD Val.vNone) ∉ sl :: seen)) := by
        rw [List.filter_filter]
        apply List.filter_congr
        intro x hx
        obtain ⟨slx, hslx⟩ := Option.isSome_iff_exists.mp (hrest x hx)
        simp [hslx, hsl, List.mem_cons, not_or, Bool.and_comm]
      rw [hmerge]
      simp

/-- C2: dedup is stable and key-unique.  On any record sequence whose
records all carry a slug key, _remove_duplicate_stories returns exactly the
subsequence of first occurrences of each slug in original order (the kept
entry IS the first record, so no field of a later duplicate is merged),
that output is a subsequence of the input, and its slugs are pairwise
distinct. -/
theorem dedup_first_occurrence (stories : List PyDict)
    (h : ∀ s ∈ stories, (dget s "slug").isSome) :
    removeDuplicateStories stories = some (firstOccurrencesBySlug stories) ∧
    (firstOccurrencesBySlug stories).Sublist stories ∧
    ((firstOccurrencesBySlug stories).map (fun s => dget s "slug")).Nodup := by
  refine ⟨?_, firstOccurrencesBySlug_sublist stories,
    firstOccurrencesBySlug_slugs_nodup stories⟩
  unfold removeDuplicateStories
  rw [removeDuplicateStoriesGo_eq stories [] h]
  have : stories.filter
      (fun s => decide (((dget s "slug").getD Val.vNone) ∉ ([] : List Val))) =
      stories := by
    apply List.filter_eq_self.mpr
    intro x hx
    simp
  rw [this]

def exDupFirst : PyDict := [("slug", Val.vStr "s1"), ("headline", Val.vStr "A")]

def exDupLater : PyDict :=
  [("slug", Val.vStr "s1"), ("headline", Val.vStr "B"),
   ("hero_image_url", Val.vStr "img")]

def exOtherSlug : PyDict := [("slug", Val.vStr "s2"), ("headline", Val.vStr "C")]

theorem dedup_first_occurrence_witness :
    (∀ s ∈ [exDupFirst, exDupLater, exOtherSlug], (dget s "slug").isSome) ∧
    (removeDuplicateStories [exDupFirst, exDupLater, exOtherSlug] =
      some (firstOccurrencesBySlug [exDupFirst, exDupLater, exOtherSlug]) ∧
    (firstOccurrencesBySlug [exDupFirst, exDupLater, exOtherSlug]).Sublist
      [exDupFirst, exDupLater, exOtherSlug] ∧
    ((firstOccurrencesBySlug [exDupFirst, exDupLater, exOtherSlug]).map
      (fun s => dget s "slug")).Nodup) :=
  ⟨by decide,
   dedup_first_occurrence [exDupFirst, exDupLater, exOtherSlug] (by decide)⟩

/-! ## ScraperFactory.create_scraper (scrap.py)

The registry maps lowercase names to scraper classes; create_scraper looks
up scraper_type.lower() and raises ValueError when the lookup fails (a
class object is always truthy, so `if not scraper_class:` is exactly the
None check).  Instantiating the class is modelled by returning its tag. -/

inductive ScraperClass where
  | dailyStar : ScraperClass
  | prothomAlo : ScraperClass
deriving DecidableEq

/-- ScraperFactory._scrapers. -/
def scraperRegistry : List (String × ScraperClass) :=
  [("daily_star", .dailyStar), ("prothom_alo", .prothomAlo)]

def registryGet : List (String × ScraperClass) → String → Option ScraperClass
  | [], _ => none
  | (k, v) :: rest, key => if k = key then some v else registryGet rest key

def createScraper (scraperType : String) : Except String ScraperClass :=
  match registryGet scraperRegistry (pyLower scraperType) with
  | some cls => .ok cls
  | none => .error ("Unknown scraper type: " ++ scraperType ++
      ". Available types: daily_star, prothom_alo")

/-- C10: create_scraper raises ValueError exactly when the lowercased name
is not a registered key, and otherwise returns an instance of the class
registered under the lowercased key. -/
theorem createScraper_lookup (s : String) :
    ((∃ msg, createScraper s = .error msg) ↔
      registryGet scraperRegistry (pyLower s) = none) ∧
    (∀ cls, registryGet scraperRegistry (pyLower s) = some cls →
      createScraper s = .ok cls) := by
  unfold createScraper
  cases hr : registryGet scraperRegistry (pyLower s) <;> simp [hr]

theorem createScraper_lookup_witness :
    registryGet scraperRegistry (pyLower "Daily_Star") =
      some ScraperClass.dailyStar ∧
    createScraper "Daily_Star" = .ok ScraperClass.dailyStar ∧
    createScraper "daily_star" = .ok ScraperClass.dailyStar :=
  ⟨by decide,
   (createScraper_lookup "Daily_Star").2 ScraperClass.dailyStar (by decide),
   (createScraper_lookup "daily_star").2 ScraperClass.dailyStar (by decide)⟩

/-! ## ProthomAloScraper._extract_content_from_cards and
_extract_story_details

The double loop over cards and story-elements is embedded with explicit
accumulators.  A None result models an exception escaping the loop
(iterating a non-iterable, .get on a non-dict, re.sub on a non-str), which
_extract_story_details catches, returning None.  Note the source reads
subtype with default "" and then tests `if subtype is None:`, so only an
element whose subtype key is PRESENT with value null is processed. -/

def mediaBaseUrl : String := "https://media.prothomalo.com/"

def paBaseUrl : String := "https://www.prothomalo.com"

/-- Python `for x in v`: lists yield elements, strings yield one-character
strings, dicts yield their keys; other values raise TypeError. -/
def pyIterList : Val → Option (List Val)
  | .vList l => some l
  | .vStr s => some (s.data.map (fun c => Val.vStr ⟨[c]⟩))
  | .vDict fs => some (fs.map (fun kv => Val.vStr kv.1))
  | _ => none

/-- One iteration of the inner element loop, updating the description and
image-url accumulators. -/
def processElement (desc : String) (imgs : List String) (e : Val) :
    Option (String × List String) :=
  match e with
  | .vDict ed =>
    let elementType := dgetD ed "type" (Val.vStr "")
    let subtype := dgetD ed "subtype" (Val.vStr "")
    if subtype = Val.vNone then
      if elementType = Val.vStr "text" ∨ elementType = Val.vStr "title" then
        let textV := dgetD ed "text" (Val.vStr "")
        if pyTruthy textV then
          match textV with
          | .vStr t => some (desc ++ (⟨stripTags t.data⟩ : String) ++ "\n\n",
              imgs)
          | _ => none
        else some (desc, imgs)
      else if elementType = Val.vStr "image" then
        let key := dgetD ed "image-s3-key" (Val.vStr "")
        if pyTruthy key then some (desc, imgs ++ [mediaBaseUrl ++ pyStr key])
        else some (desc, imgs)
      else some (desc, imgs)
    else some (desc, imgs)
  | _ => none

def processElements (desc : String) (imgs : List String) :
    List Val → Option (String × List String)
  | [] => some (desc, imgs)
  | e :: rest =>
    match processElement desc imgs e with
    | some r => processElements r.1 r.2 rest
    | none => none

def processCard (desc : String) (imgs : List String) (card : Val) :
    Option (String × List String) :=
  match card with
  | .vDict cd =>
    match pyIterList (dgetD cd "story-elements" (Val.vList [])) with
    | some els => processElements desc imgs els
    | none => none
  | _ => none

def processCards (desc : String) (imgs : List String) :
    List Val → Option (String × List String)
  | [] => some (desc, imgs)
  | c :: rest =>
    match processCard desc imgs c with
    | some r => processCards r.1 r.2 rest
    | none => none

/-- ProthomAloScraper._extract_content_from_cards. -/
def extractContentFromCards (cards : Val) : Option (String × List String) :=
  match pyIterList cards with
  | some cl => processCards "" [] cl
  | none => none

/-- ProthomAloScraper._extract_story_details.  Threads the filesystem
through the image downloads; the outer try/except maps any escaping
exception to None.  A truthy non-str slug makes every download fail inside
download_image (os.path.join raises before any fetch), leaving the
filesystem untouched. -/
def extractStoryDetails (fetch : String → FetchResult) (now : String)
    (fs : FS) (storyData : Val) (storyUrl : String) : Option PyDict × FS :=
  match storyData with
  | .vDict sd =>
    let headline := dgetD sd "headline" (Val.vStr "")
    let slug := dgetD sd "slug" (Val.vStr "")
    let lastPublishedAt := dgetD sd "last-published-at" (Val.vStr "")
    let heroImageS3Key := dgetD sd "hero-image-s3-key" (Val.vStr "")
    let heroImageUrl : Option String :=
      if pyTruthy heroImageS3Key then some (mediaBaseUrl ++ pyStr heroImageS3Key)
      else none
    match extractContentFromCards (dgetD sd "cards" (Val.vList [])) with
    | none => (none, fs)
    | some (description, imageUrls) =>
      let slugVal := if pyTruthy slug then slug
        else Val.vStr (createSlugFromUrl storyUrl)
      match slugVal with
      | .vStr slugStr =>
        let di := downloadImages fetch fs imageUrls slugStr none
        let hero :=
          match heroImageUrl with
          | some hu =>
            let r := downloadImage fetch di.2.1 hu slugStr "hero" none
            (r.1, r.2.1)
          | none => (none, di.2.1)
        (some
          [("headline", headline),
           ("slug", slugVal),
           ("url", Val.vStr storyUrl),
           ("last_published_at", lastPublishedAt),
           ("hero_image_url",
            match heroImageUrl with
            | some hu => Val.vStr hu
            | none => Val.vNone),
           ("hero_image_local",
            match hero.1 with
            | some p => Val.vStr p
            | none => Val.vNone),
           ("description", Val.vStr (pyStrip description)),
           ("image_urls", Val.vList (imageUrls.map Val.vStr)),
           ("local_images", Val.vList (di.1.map Val.vStr)),
           ("scraped_at", Val.vStr now)], hero.2)
      | _ =>
        (some
          [("headline", headline),
           ("slug", slugVal),
           ("url", Val.vStr storyUrl),
           ("last_published_at", lastPublishedAt),
           ("hero_image_url",
            match heroImageUrl with
            | some hu => Val.vStr hu
            | none => Val.vNone),
           ("hero_image_local", Val.vNone),
           ("description", Val.vStr (pyStrip description)),
           ("image_urls", Val.vList (imageUrls.map Val.vStr)),
           ("local_images", Val.vList []),
           ("scraped_at", Val.vStr now)], fs)
  | _ => (none, fs)

/-- The claim side of C9: the body fragment contributed by one content
element — present exactly when the subtype is null and the element is
text-bearing (type text or title) with non-empty text; the fragment is the
tag-stripped text. -/
def claimFragment (e : Val) : Option String :=
  match e with
  | .vDict ed =>
    if dgetD ed "subtype" (Val.vStr "") = Val.vNone ∧
        (dgetD ed "type" (Val.vStr "") = Val.vStr "text" ∨
         dgetD ed "type" (Val.vStr "") = Val.vStr "title") then
      match dgetD ed "text" (Val.vStr "") with
      | .vStr t => if t.data.isEmpty then none else some ⟨stripTags t.data⟩
      | _ => none
    else none
  | _ => none

def claimFragments (els : List Val) : List String := els.filterMap claimFragment

/-- Blank-line join of fragments (the claim side separator). -/
def blankLineJoin : List String → String
  | [] => ""
  | [f] => f
  | f :: rest => f ++ "\n\n" ++ blankLineJoin rest

/-- What the code appends for each fragment: fragment plus trailing
separator. -/
def trailJoin : List String → String
  | [] => ""
  | f :: rest => f ++ "\n\n" ++ trailJoin rest

def elemFrag (e : Val) : String :=
  match claimFragment e with
  | some f => f ++ "\n\n"
  | none => ""

def elemImgs (e : Val) : List String :=
  match e with
  | .vDict ed =>
    if dgetD ed "subtype" (Val.vStr "") = Val.vNone ∧
        ¬(dgetD ed "type" (Val.vStr "") = Val.vStr "text" ∨
          dgetD ed "type" (Val.vStr "") = Val.vStr "title") ∧
        dgetD ed "type" (Val.vStr "") = Val.vStr "image" ∧
        pyTruthy (dgetD ed "image-s3-key" (Val.vStr "")) then
      [mediaBaseUrl ++ pyStr (dgetD ed "image-s3-key" (Val.vStr ""))]
    else []
  | _ => []

def elemsFrag : List Val → String
  | [] => ""
  | e :: rest => elemFrag e ++ elemsFrag rest

def elemsImgs : List Val → List String
  | [] => []
  | e :: rest => elemImgs e ++ elemsImgs rest

/-- The element stream a successful extraction walks over. -/
def cardElements (card : Val) : List Val :=
  match card with
  | .vDict cd =>
    match pyIterList (dgetD cd "story-elements" (Val.vList [])) with
    | some els => els
    | none => []
  | _ => []

def allElements (cards : Val) : List Val :=
  match pyIterList cards with
  | some cl => (cl.map cardElements).flatten
  | none => []

theorem processElement_some (desc : String) (imgs : List String) (e : Val)
    (r : String × List String) (h : processElement desc imgs e = some r) :
    r = (desc ++ elemFrag e, imgs ++ elemImgs e) := by
  cases e with
  | vDict ed =>
    unfold processElement at h
    unfold elemFrag elemImgs claimFragment
    dsimp only at h ⊢
    by_cases hs : dgetD ed "subtype" (Val.vStr "") = Val.vNone
    · rw [if_pos hs] at h
      by_cases ht : dgetD ed "type" (Val.vStr "") = Val.vStr "text" ∨
          dgetD ed "type" (Val.vStr "") = Val.vStr "title"
      · rw [if_pos ht] at h
        cases htxt : dgetD ed "text" (Val.vStr "") with
        | vStr t =>
          by_cases hte : t.data.isEmpty
          · rw [htxt] at h
            simp [pyTruthy, hte] at h
            simp [hs, ht, htxt, hte, ← h]
          · rw [htxt] at h
            simp [pyTruthy, hte] at h
            simp [hs, ht, htxt, hte, ← h, String.append_assoc]
        | vNone =>
          rw [htxt] at h
          simp [pyTruthy] at h
          simp [hs, ht, htxt, ← h]
        | vInt n =>
          rw [htxt] at h
          by_cases hn : n = 0
          · simp [pyTruthy, hn] at h
            simp [hs, ht, htxt, ← h]
          · simp [pyTruthy, hn] at h
        | vBool b =>
          rw [htxt] at h
          cases b
          · simp [pyTruthy] at h
            simp [hs, ht, htxt, ← h]
          · simp [pyTruthy] at h
        | vList xs =>
          rw [htxt] at h
          cases xs with
          | nil =>
            simp [pyTruthy] at h
            simp [hs, ht, htxt, ← h]
          | cons x rest => simp [pyTruthy] at h
        | vDict fs =>
          rw [htxt] at h
          cases fs with
          | nil =>
            simp [pyTruthy] at h
            simp [hs, ht, htxt, ← h]
          | cons kv rest => simp [pyTruthy] at h
      · rw [if_neg ht] at h
        by_cases hi : dgetD ed "type" (Val.vStr "") = Val.vStr "image"
        · rw [if_pos hi] at h
          by_cases hk : pyTruthy (dgetD ed "image-s3-key" (Val.vStr ""))
          · simp [hk] at h
            simp [hs, ht, hi, hk, ← h]
          · simp [hk] at h
            simp [hs, ht, hi, hk, ← h]
        · rw [if_neg hi] at h
          simp at h
          simp [hs, ht, hi, ← h]
    · rw [if_neg hs] at h
      simp at h
      simp [hs, ← h]
  | vNone => simp [processElement] at h
  | vStr s => simp [processElement] at h
  | vInt n => simp [processElement] at h
  | vBool b => simp [processElement] at h
  | vList xs => simp [processElement] at h

theorem processElements_some (els : List Val) :
    ∀ desc imgs r, processElements desc imgs els = some r →
      r = (desc ++ elemsFrag els, imgs ++ elemsImgs els) := by
  induction els with
  | nil =>
    intro desc imgs r h
    simp [processElements] at h
    simp [← h, elemsFrag, elemsImgs]
  | cons e rest ih =>
    intro desc imgs r h
    unfold processElements at h
    cases hpe : processElement desc imgs e with
    | none => rw [hpe] at h; simp at h
    | some pr =>
      rw [hpe] at h
      have hpr := processElement_some desc imgs e pr hpe
      have hr := ih pr.1 pr.2 r h
      rw [hpr] at hr
      simp only [elemsFrag, elemsImgs, hr, String.append_assoc,
        List.append_assoc]

theorem processCards_some (cl : List Val) :
    ∀ desc imgs r, processCards desc imgs cl = some r →
      r = (desc ++ elemsFrag (cl.map cardElements).flatten,
           imgs ++ elemsImgs (cl.map cardElements).flatten) := by
  induction cl with
  | nil =>
    intro desc imgs r h
    simp [processCards] at h
    simp [← h, elemsFrag, elemsImgs]
  | cons c rest ih =>
    intro desc imgs r h
    unfold processCards at h
    cases hpc : processCard desc imgs c with
    | none => rw [hpc] at h; simp at h
    | some pr =>
      rw [hpc] at h
      have hpr : pr = (desc ++ elemsFrag (cardElements c),
          imgs ++ elemsImgs (cardElements c)) := by
        cases c with
        | vDict cd =>
          revert hpc
          unfold processCard
          dsimp only
          cases hit : pyIterList (dgetD cd "story-elements" (Val.vList []))
            with
          | none => intro hpc; simp at hpc
          | some els =>
            intro hpc
            have h2 := processElements_some els desc imgs pr hpc
            rw [h2]
            simp [cardElements, hit]
        | vNone => simp [processCard] at hpc
        | vStr s => simp [processCard] at hpc
        | vInt n => simp [processCard] at hpc
        | vBool b => simp [processCard] at hpc
        | vList xs => simp [processCard] at hpc
      have hr := ih pr.1 pr.2 r h
      rw [hpr] at hr
      have hfrag : ∀ (a b : List Val), elemsFrag (a ++ b) =
          elemsFrag a ++ elemsFrag b := by
        intro a b
        induction a with
        | nil => simp [elemsFrag]
        | cons x xs ihx => simp [elemsFrag, ihx, String.append_assoc]
      have himgs : ∀ (a b : List Val), elemsImgs (a ++ b) =
          elemsImgs a ++ elemsImgs b := by
        intro a b
        induction a with
        | nil => simp [elemsImgs]
        | cons x xs ihx => simp [elemsImgs, ihx]
      simp only [hr, List.map_cons, List.flatten_cons, hfrag, himgs,
        String.append_assoc, List.append_assoc]

theorem extractContentFromCards_some (cards : Val) (desc : String)
    (imgs : List String)
    (h : extractContentFromCards cards = some (desc, imgs)) :
    desc = elemsFrag (allElements cards) ∧
    imgs = elemsImgs (allElements cards) := by
  unfold extractContentFromCards at h
  unfold allElements
  cases hit : pyIterList cards with
  | none => rw [hit] at h; simp at h
  | some cl =>
    rw [hit] at h
    have := processCards_some cl "" [] (desc, imgs) h
    simp at this
    exact ⟨this.1, this.2⟩

theorem dropWhile_append_all (a b : List Char)
    (h : ∀ c ∈ a, isPySpace c) :
    (a ++ b).dropWhile isPySpace = b.dropWhile isPySpace := by
  induction a with
  | nil => simp
  | cons c rest ih =>
    simp only [List.cons_append, List.dropWhile_cons, h c (by simp),
      if_true]
    exact ih (fun x hx => h x (by simp [hx]))

theorem dropWhile_all_nil (a : List Char) (h : ∀ c ∈ a, isPySpace c) :
    a.dropWhile isPySpace = [] := by
  induction a with
  | nil => simp
  | cons c rest ih =>
    simp only [List.dropWhile_cons, h c (by simp), if_true]
    exact ih (fun x hx => h x (by simp [hx]))

theorem dropWhile_append_nil (l w : List Char)
    (h : l.dropWhile isPySpace = []) :
    (l ++ w).dropWhile isPySpace = w.dropWhile isPySpace := by
  induction l with
  | nil => simp
  | cons c rest ih =>
    simp only [List.cons_append, List.dropWhile_cons] at h ⊢
    by_cases hc : isPySpace c
    · simp only [hc, if_true] at h ⊢
      exact ih h
    · simp [hc] at h
  
theorem dropWhile_append_left (l w : List Char)
    (h : l.dropWhile isPySpace ≠ []) :
    (l ++ w).dropWhile isPySpace = l.dropWhile isPySpace ++ w := by
  induction l with
  | nil => simp at h
  | cons c rest ih =>
    simp only [List.cons_append, List.dropWhile_cons] at h ⊢
    by_cases hc : isPySpace c
    · simp only [hc, if_true] at h ⊢
      exact ih h
    · simp [hc]

theorem stripChars_append_ws (l w : List Char)
    (hw : ∀ c ∈ w, isPySpace c) :
    stripChars (l ++ w) = stripChars l := by
  unfold stripChars
  by_cases hd : l.dropWhile isPySpace = []
  · rw [dropWhile_append_nil l w hd, dropWhile_all_nil w hw, hd]
  · rw [dropWhile_append_left l w hd, List.reverse_append,
      dropWhile_append_all w.reverse _ (fun c hc => hw c (by simpa using hc))]

theorem pyStrip_append_sep (s : String) : pyStrip (s ++ "\n\n") = pyStrip s := by
  unfold pyStrip
  have hdata : (s ++ "\n\n").data = s.data ++ ['\n', '\n'] := by
    cases s
    rfl
  rw [hdata, stripChars_append_ws s.data ['\n', '\n'] (by
    intro c hc
    simp at hc
    simp [hc, isPySpace])]

theorem trailJoin_eq (frags : List String) :
    trailJoin frags =
      blankLineJoin frags ++ (if frags.isEmpty then "" else "\n\n") := by
  induction frags with
  | nil => rfl
  | cons f rest ih =>
    cases rest with
    | nil => simp [trailJoin, blankLineJoin]
    | cons g rs =>
      show f ++ "\n\n" ++ trailJoin (g :: rs) = _
      rw [ih]
      simp only [List.isEmpty_cons, if_neg (by simp : ¬False), if_false]
      show _ = f ++ "\n\n" ++ blankLineJoin (g :: rs) ++ "\n\n"
      simp [String.append_assoc]

theorem pyStrip_trailJoin (frags : List String) :
    pyStrip (trailJoin frags) = pyStrip (blankLineJoin frags) := by
  rw [trailJoin_eq]
  cases frags with
  | nil => simp
  | cons f rest =>
    simp only [List.isEmpty_cons, if_false]
    exact pyStrip_append_sep _

theorem elemsFrag_eq_trailJoin (els : List Val) :
    elemsFrag els = trailJoin (claimFragments els) := by
  induction els with
  | nil => rfl
  | cons e rest ih =>
    unfold elemsFrag claimFragments
    rw [List.filterMap_cons]
    cases hc : claimFragment e with
    | none => simpa [elemFrag, hc, claimFragments] using ih
    | some f =>
      simp only [elemFrag, hc, trailJoin, claimFragments] at ih ⊢
      rw [ih, String.append_assoc]

theorem extractStoryDetails_some_fields (fetch : String → FetchResult)
    (now : String) (fs : FS) (sd : List (String × Val)) (storyUrl : String)
    (details : PyDict) (fs2 : FS)
    (hdet : extractStoryDetails fetch now fs (Val.vDict sd) storyUrl =
      (some details, fs2)) :
    dget details "headline" = some (dgetD sd "headline" (Val.vStr "")) ∧
    ∃ desc imgs,
      extractContentFromCards (dgetD sd "cards" (Val.vList [])) =
        some (desc, imgs) ∧
      dget details "description" = some (Val.vStr (pyStrip desc)) := by
  revert hdet
  unfold extractStoryDetails
  dsimp only
  cases hec : extractContentFromCards (dgetD sd "cards" (Val.vList [])) with
  | none =>
    intro hdet
    simp at hdet
  | some pr =>
    obtain ⟨desc, imageUrls⟩ := pr
    intro hdet
    refine ⟨?_, desc, imageUrls, rfl, ?_⟩ <;>
    · revert hdet
      cases hsv : (if pyTruthy (dgetD sd "slug" (Val.vStr "")) then
          dgetD sd "slug" (Val.vStr "")
        else Val.vStr (createSlugFromUrl storyUrl)) <;>
        · intro hdet
          simp only [Prod.mk.injEq, Option.some.injEq] at hdet
          rw [← hdet.1]
          simp [dget]

/-- C9: body-text extraction.  Whenever _extract_story_details returns a
detail record, its description field equals the whitespace-trimmed
blank-line join of the tag-stripped texts of exactly those content elements
whose subtype is null and whose type is text-bearing (text or title) with
non-empty text; elements with a non-null subtype (quotes, embeds)
contribute nothing. -/
theorem bodyText_extraction (fetch : String → FetchResult) (now : String)
    (fs : FS) (sd : List (String × Val)) (storyUrl : String)
    (details : PyDict) (fs2 : FS)
    (hdet : extractStoryDetails fetch now fs (Val.vDict sd) storyUrl =
      (some details, fs2)) :
    dget details "description" =
      some (Val.vStr (pyStrip (blankLineJoin (claimFragments
        (allElements (dgetD sd "cards" (Val.vList []))))))) := by
  obtain ⟨-, desc, imgs, hec, hdesc⟩ :=
    extractStoryDetails_some_fields fetch now fs sd storyUrl details fs2 hdet
  rw [hdesc, (extractContentFromCards_some _ _ _ hec).1,
    elemsFrag_eq_trailJoin, pyStrip_trailJoin]

/-- Scenario C input: one card with a plain text element carrying markup and
one quote-subtype element. -/
def exScenarioStory : List (String × Val) :=
  [("cards", Val.vList [Val.vDict [("story-elements", Val.vList
    [Val.vDict [("type", Val.vStr "text"), ("subtype", Val.vNone),
      ("text", Val.vStr "<b>Hi</b>")],
     Val.vDict [("type", Val.vStr "text"), ("subtype", Val.vStr "quote"),
      ("text", Val.vStr "Skip")]])]])]

theorem bodyText_extraction_witness :
    (extractStoryDetails fetchOk2 "T" [] (Val.vDict exScenarioStory)
        "https://www.prothomalo.com/s1").1.isSome ∧
    dget ((extractStoryDetails fetchOk2 "T" [] (Val.vDict exScenarioStory)
        "https://www.prothomalo.com/s1").1.getD [])
      "description" =
      some (Val.vStr (pyStrip (blankLineJoin (claimFragments
        (allElements (dgetD exScenarioStory "cards" (Val.vList []))))))) ∧
    pyStrip (blankLineJoin (claimFragments
      (allElements (dgetD exScenarioStory "cards" (Val.vList []))))) = "Hi" := by
  refine ⟨by decide, ?_, by decide⟩
  have h := bodyText_extraction fetchOk2 "T" [] exScenarioStory
    "https://www.prothomalo.com/s1"
    ((extractStoryDetails fetchOk2 "T" [] (Val.vDict exScenarioStory)
      "https://www.prothomalo.com/s1").1.getD [])
    (extractStoryDetails fetchOk2 "T" [] (Val.vDict exScenarioStory)
      "https://www.prothomalo.com/s1").2 (by decide)
  exact h

/-- Discovery record used in the C4 counterexample. -/
def exDiscovery : PyDict :=
  [("headline", Val.vStr "A"), ("slug", Val.vStr "s1"), ("url", Val.vStr "u")]

/-- C4 counterexample: the detail page yields a story object WITHOUT a
headline, so _extract_story_details produces headline "" and the merged
record has headline "" — it does NOT fall back to the discovery headline
"A". -/
theorem merged_headline_no_fallback :
    ((extractStoryDetails (fun _ => FetchResult.transportErr) "T" []
        (Val.vDict [("slug", Val.vStr "s1")]) "u").1.map
      (fun details => dget (pyMerge exDiscovery details) "headline")) =
      some (some (Val.vStr "")) ∧
    Val.vStr "" ≠ Val.vStr "A" := by
  refine ⟨by decide, by decide⟩

/-- C4 amended: the merged full record takes the detail value on EVERY key
the detail record carries (detail precedence), and its headline always
equals the detail headline — story_data.get("headline", "") — even when
that is empty; there is no fallback to the discovery headline (when detail
extraction fails the record is dropped entirely instead). -/
theorem fullRecord_detail_precedence (story : PyDict)
    (fetch : String → FetchResult) (now : String) (fs : FS)
    (sd : List (String × Val)) (storyUrl : String) (details : PyDict)
    (fs2 : FS)
    (hdet : extractStoryDetails fetch now fs (Val.vDict sd) storyUrl =
      (some details, fs2)) :
    (∀ k v, dget details k = some v →
      dget (pyMerge story details) k = some v) ∧
    (∀ k, dget details k = none →
      dget (pyMerge story details) k = dget story k) ∧
    dget (pyMerge story details) "headline" =
      some (dgetD sd "headline" (Val.vStr "")) := by
  refine ⟨?_, ?_, ?_⟩
  · intro k v hv
    rw [dget_pyMerge]
    simp [hv]
  · intro k hk
    rw [dget_pyMerge]
    simp [hk]
  · rw [dget_pyMerge,
      (extractStoryDetails_some_fields fetch now fs sd storyUrl details fs2
        hdet).1]

theorem fullRecord_detail_precedence_witness :
    (extractStoryDetails fetchOk2 "T" []
        (Val.vDict [("headline", Val.vStr "DH"), ("slug", Val.vStr "s1")])
        "u").1.isSome ∧
    dget (pyMerge exDiscovery
        ((extractStoryDetails fetchOk2 "T" []
          (Val.vDict [("headline", Val.vStr "DH"), ("slug", Val.vStr "s1")])
          "u").1.getD []))
      "headline" =
      some (dgetD [("headline", Val.vStr "DH"), ("slug", Val.vStr "s1")]
        "headline" (Val.vStr "")) := by
  refine ⟨by decide, ?_⟩
  exact (fullRecord_detail_precedence exDiscovery fetchOk2 "T" []
    [("headline", Val.vStr "DH"), ("slug", Val.vStr "s1")] "u"
    ((extractStoryDetails fetchOk2 "T" []
      (Val.vDict [("headline", Val.vStr "DH"), ("slug", Val.vStr "s1")])
      "u").1.getD [])
    (extractStoryDetails fetchOk2 "T" []
      (Val.vDict [("headline", Val.vStr "DH"), ("slug", Val.vStr "s1")])
      "u").2 (by decide)).2.2

/-! ## TreeExtractor: ProthomAloScraper._traverse_collections and
deepseek_v3.traverse_collections, with _extract_story_info

The two source trees differ in one structural point: in the class-based
scraper the generic value scan is the ELSE branch of the type dispatch,
while in the standalone script it runs unconditionally after the dispatch,
so there a story node's field values are scanned as well.  Iterating
d["items"] when it is a string or a dict yields strings, each of which
traverses to nothing; a non-iterable raises TypeError (None result). -/

/-- ProthomAloScraper._extract_story_info / deepseek_v3.extract_story_info
(identical behavior): the required-field gate plus record construction.
The try/except turns an attribute error on a non-dict into None. -/
def extractStoryInfo (now : String) (storyData : Val) : Option PyDict :=
  match storyData with
  | .vDict sd =>
    let headline := dgetD sd "headline" Val.vNone
    let slug := dgetD sd "slug" Val.vNone
    if ¬pyTruthy headline ∨ ¬pyTruthy slug then none
    else
      let heroKey := dgetD sd "hero-image-s3-key" Val.vNone
      some [("headline", headline),
            ("slug", slug),
            ("url", Val.vStr (paBaseUrl ++ "/" ++ pyStr slug)),
            ("last_published_at", dgetD sd "last-published-at" Val.vNone),
            ("hero_image_url",
             if pyTruthy heroKey then Val.vStr (mediaBaseUrl ++ pyStr heroKey)
             else Val.vNone),
            ("scraped_at", Val.vStr now)]
  | _ => none

theorem dget_sizeOf {d : List (String × Val)} {k : String} {v : Val}
    (h : dget d k = some v) : sizeOf v < sizeOf d := by
  induction d with
  | nil => simp [dget] at h
  | cons kv rest ih =>
    rw [dget] at h
    by_cases hk : kv.1 = k
    · rw [if_pos hk] at h
      cases h
      cases kv with
      | mk k1 v1 =>
        simp only [List.cons.sizeOf_spec, Prod.mk.sizeOf_spec]
        omega
    · rw [if_neg hk] at h
      have := ih h
      simp only [List.cons.sizeOf_spec]
      omega

mutual

/-- ProthomAloScraper._traverse_collections: the generic value scan is the
ELSE branch — a story node yields its leaf and is NOT scanned further. -/
def traversePA (now : String) : Val → Option (List PyDict)
  | .vDict d =>
    if dget d "type" = some (Val.vStr "collection") ∧ (dget d "items").isSome
    then
      match hit : dget d "items" with
      | some (Val.vList items) => traverseListPA now items
      | some (Val.vStr _) => some []
      | some (Val.vDict _) => some []
      | some Val.vNone => none
      | some (Val.vInt _) => none
      | some (Val.vBool _) => none
      | none => none
    else if dget d "type" = some (Val.vStr "story") then
      match extractStoryInfo now ((dget d "story").getD (Val.vDict d)) with
      | some story => if story.isEmpty then some [] else some [story]
      | none => some []
    else traverseValsPA now d
  | .vList xs => traverseListPA now xs
  | .vNone => some []
  | .vStr _ => some []
  | .vInt _ => some []
  | .vBool _ => some []
termination_by v => sizeOf v
decreasing_by
  all_goals
    first
      | (have hs := dget_sizeOf
           (show dget d "items" = some (Val.vList items) from by assumption)
         simp only [Val.vList.sizeOf_spec] at hs
         simp only [Val.vDict.sizeOf_spec]
         omega)
      | (simp only [Val.vDict.sizeOf_spec, Val.vList.sizeOf_spec,
           List.cons.sizeOf_spec, Prod.mk.sizeOf_spec]
         omega)
      | omega

def traverseValsPA (now : String) : List (String × Val) → Option (List PyDict)
  | [] => some []
  | (_, v) :: rest =>
    match v with
    | .vDict vd =>
      match traversePA now (Val.vDict vd) with
      | some rs => (traverseValsPA now rest).map (fun more => rs ++ more)
      | none => none
    | .vList vl =>
      match traversePA now (Val.vList vl) with
      | some rs => (traverseValsPA now rest).map (fun more => rs ++ more)
      | none => none
    | _ => traverseValsPA now rest
termination_by d => sizeOf d

def traverseListPA (now : String) : List Val → Option (List PyDict)
  | [] => some []
  | x :: rest =>
    match traversePA now x with
    | some rs => (traverseListPA now rest).map (fun more => rs ++ more)
    | none => none
termination_by l => sizeOf l

end

mutual

/-- deepseek_v3.traverse_collections: the type dispatch fills `stories`
first, and the generic value scan then runs UNCONDITIONALLY for every dict
node, so a story node's field values are scanned too. -/
def traverseDS (now : String) : Val → Option (List PyDict)
  | .vDict d =>
    if dget d "type" = some (Val.vStr "collection") ∧ (dget d "items").isSome
    then
      match hit : dget d "items" with
      | some (Val.vList items) =>
        match traverseListDS now items with
        | some bs => (traverseValsDS now d).map (fun vs => bs ++ vs)
        | none => none
      | some (Val.vStr _) => traverseValsDS now d
      | some (Val.vDict _) => traverseValsDS now d
      | some Val.vNone => none
      | some (Val.vInt _) => none
      | some (Val.vBool _) => none
      | none => none
    else if dget d "type" = some (Val.vStr "story") then
      match extractStoryInfo now ((dget d "story").getD (Val.vDict d)) with
      | some story =>
        if story.isEmpty then traverseValsDS now d
        else (traverseValsDS now d).map (fun vs => story :: vs)
      | none => traverseValsDS now d
    else traverseValsDS now d
  | .vList xs => traverseListDS now xs
  | .vNone => some []
  | .vStr _ => some []
  | .vInt _ => some []
  | .vBool _ => some []
termination_by v => sizeOf v
decreasing_by
  all_goals
    first
      | (have hs := dget_sizeOf
           (show dget d "items" = some (Val.vList items) from by assumption)
         simp only [Val.vList.sizeOf_spec] at hs
         simp only [Val.vDict.sizeOf_spec]
         omega)
      | (simp only [Val.vDict.sizeOf_spec, Val.vList.sizeOf_spec,
           List.cons.sizeOf_spec, Prod.mk.sizeOf_spec]
         omega)
      | omega

def traverseValsDS (now : String) : List (String × Val) → Option (List PyDict)
  | [] => some []
  | (_, v) :: rest =>
    match v with
    | .vDict vd =>
      match traverseDS now (Val.vDict vd) with
      | some rs => (traverseValsDS now rest).map (fun more => rs ++ more)
      | none => none
    | .vList vl =>
      match traverseDS now (Val.vList vl) with
      | some rs => (traverseValsDS now rest).map (fun more => rs ++ more)
      | none => none
    | _ => traverseValsDS now rest
termination_by d => sizeOf d

def traverseListDS (now : String) : List Val → Option (List PyDict)
  | [] => some []
  | x :: rest =>
    match traverseDS now x with
    | some rs => (traverseListDS now rest).map (fun more => rs ++ more)
    | none => none
termination_by l => sizeOf l

end

/-- A leaf nested inside another leaf's fields. -/
def exInnerLeaf : Val := Val.vDict
  [("type", Val.vStr "story"), ("headline", Val.vStr "H2"),
   ("slug", Val.vStr "s2")]

def exOuterLeaf : Val := Val.vDict
  [("type", Val.vStr "story"),
   ("story", Val.vDict
     [("headline", Val.vStr "H1"), ("slug", Val.vStr "s1"),
      ("related", exInnerLeaf)])]

def exOuterRecord : PyDict :=
  [("headline", Val.vStr "H1"), ("slug", Val.vStr "s1"),
   ("url", Val.vStr "https://www.prothomalo.com/s1"),
   ("last_published_at", Val.vNone), ("hero_image_url", Val.vNone),
   ("scraped_at", Val.vStr "T")]

def exInnerRecord : PyDict :=
  [("headline", Val.vStr "H2"), ("slug", Val.vStr "s2"),
   ("url", Val.vStr "https://www.prothomalo.com/s2"),
   ("last_published_at", Val.vNone), ("hero_image_url", Val.vNone),
   ("scraped_at", Val.vStr "T")]

/-- C5 counterexample: on a story node whose wrapped mapping contains a
further story node, the class-based extractor yields only the outer leaf —
it does not continue scanning the node's field values, so the nested leaf
is NOT yielded (while the standalone script's extractor yields both). -/
theorem traversePA_leaf_no_descent :
    traversePA "T" exOuterLeaf = some [exOuterRecord] ∧
    traverseDS "T" exOuterLeaf = some [exOuterRecord, exInnerRecord] := by
  constructor
  · simp [traversePA, traverseValsPA, traverseListPA, exOuterLeaf,
      exInnerLeaf, exOuterRecord, extractStoryInfo, dget, dgetD, pyTruthy,
      pyStr, paBaseUrl, mediaBaseUrl]
  · simp [traverseDS, traverseValsDS, traverseListDS, exOuterLeaf,
      exInnerLeaf, exOuterRecord, exInnerRecord, extractStoryInfo, dget,
      dgetD, pyTruthy, pyStr, paBaseUrl, mediaBaseUrl]

/-- C5 amended: on a story-typed mapping both extractors unwrap the
optional story wrapper and yield the leaf candidate, but only the
standalone script's extractor additionally scans the node's field values
(so only there nested leaves are yielded); the class-based extractor
returns after the leaf. -/
theorem leaf_descent_amended (now : String) (d : List (String × Val))
    (hstory : dget d "type" = some (Val.vStr "story")) :
    traversePA now (Val.vDict d) =
      (match extractStoryInfo now ((dget d "story").getD (Val.vDict d)) with
       | some story => if story.isEmpty then some [] else some [story]
       | none => some []) ∧
    traverseDS now (Val.vDict d) =
      (match extractStoryInfo now ((dget d "story").getD (Val.vDict d)) with
       | some story =>
         if story.isEmpty then traverseValsDS now d
         else (traverseValsDS now d).map (fun vs => story :: vs)
       | none => traverseValsDS now d) := by
  have hc : ¬(dget d "type" = some (Val.vStr "collection") ∧
      (dget d "items").isSome = true) := by
    rintro ⟨h1, -⟩
    rw [hstory] at h1
    simp at h1
  constructor
  · simp only [traversePA]
    rw [if_neg hc, if_pos hstory]
  · simp only [traverseDS]
    rw [if_neg hc, if_pos hstory]

def exOuterFields : List (String × Val) :=
  [("type", Val.vStr "story"),
   ("story", Val.vDict
     [("headline", Val.vStr "H1"), ("slug", Val.vStr "s1"),
      ("related", exInnerLeaf)])]

theorem leaf_descent_amended_witness :
    dget exOuterFields "type" = some (Val.vStr "story") ∧
    (traversePA "T" (Val.vDict exOuterFields) =
      (match extractStoryInfo "T"
          ((dget exOuterFields "story").getD (Val.vDict exOuterFields)) with
       | some story => if story.isEmpty then some [] else some [story]
       | none => some []) ∧
    traverseDS "T" (Val.vDict exOuterFields) =
      (match extractStoryInfo "T"
          ((dget exOuterFields "story").getD (Val.vDict exOuterFields)) with
       | some story =>
         if story.isEmpty then traverseValsDS "T" exOuterFields
         else (traverseValsDS "T" exOuterFields).map
           (fun vs => story :: vs)
       | none => traverseValsDS "T" exOuterFields)) :=
  ⟨by decide, leaf_descent_amended "T" exOuterFields (by decide)⟩

/-! ## RecordNormalizer, HTML side: DailyStarScraper._extract_card_info

A minimal DOM model of exactly what the source dereferences: the optional
h3.title tag with its optional anchor (stripped text, optional href), the
optional card-image div with its a.picture.img chain and data-srcset
attribute, and the optional time tag.  A missing href raises KeyError
(outer None); a missing title tag or anchor is the `return None` path. -/

def dsBaseUrl : String := "https://www.thedailystar.net"

structure DsAnchor where
  text : String
  href : Option String
deriving DecidableEq

structure DsTitleTag where
  a : Option DsAnchor
deriving DecidableEq

structure DsImg where
  dataSrcset : Option String
deriving DecidableEq

structure DsPicture where
  img : Option DsImg
deriving DecidableEq

structure DsImageAnchor where
  picture : Option DsPicture
deriving DecidableEq

structure DsImageDiv where
  a : Option DsImageAnchor
deriving DecidableEq

structure DsTimeTag where
  datetime : Option String
deriving DecidableEq

structure DsCard where
  title : Option DsTitleTag
  imageDiv : Option DsImageDiv
  time : Option DsTimeTag
deriving DecidableEq

/-- Python dict assignment d[k] = v: replace in place, else append. -/
def dset : PyDict → String → Val → PyDict
  | [], k, v => [(k, v)]
  | (k1, v1) :: rest, k, v =>
    if k1 = k then (k1, v) :: rest else (k1, v1) :: dset rest k v

theorem dget_dset_self (d : PyDict) (k : String) (v : Val) :
    dget (dset d k v) k = some v := by
  induction d with
  | nil => simp [dset, dget]
  | cons kv rest ih =>
    by_cases h : kv.1 = k
    · simp [dset, dget, h]
    · simp [dset, dget, h, ih]

theorem dget_dset_other (d : PyDict) (k1 k2 : String) (v : Val)
    (h : k1 ≠ k2) : dget (dset d k1 v) k2 = dget d k2 := by
  induction d with
  | nil => simp [dset, dget, h]
  | cons kv rest ih =>
    by_cases hk : kv.1 = k1
    · simp [dset, dget, hk, h, ih]
    · simp [dset, dget, hk, h, ih]

/-- The hero-image section: `if img_element and img_element.get(...)`. -/
def dsHeroUpdate (idiv : Option DsImageDiv) (story : PyDict) : PyDict :=
  match idiv with
  | some div =>
    let imgElem : Option DsImg :=
      match div.a with
      | some ia =>
        match ia.picture with
        | some pic => pic.img
        | none => none
      | none => none
    match imgElem with
    | some img =>
      match img.dataSrcset with
      | some srcset =>
        if srcset.data.isEmpty then story
        else dset story "hero_image_url" (Val.vStr srcset)
      | none => story
    | none => story
  | none => story

/-- The published-date section: time_tag.get("datetime", ""). -/
def dsTimeUpdate (t : Option DsTimeTag) (story : PyDict) : PyDict :=
  match t with
  | some tt => dset story "last_published_at" (Val.vStr (tt.datetime.getD ""))
  | none => story

/-- DailyStarScraper._extract_card_info.  The headline is the anchor's
get_text(strip=True); only PRESENCE of the title anchor is checked, never
non-emptiness of its text. -/
def extractCardInfo (now : String) (urljoin : String → String → String)
    (card : DsCard) : Option (Option PyDict) :=
  let story0 : PyDict :=
    [("headline", Val.vNone), ("url", Val.vNone),
     ("hero_image_url", Val.vNone), ("last_published_at", Val.vNone),
     ("scraped_at", Val.vStr now)]
  match card.title with
  | some tt =>
    match tt.a with
    | some a =>
      match a.href with
      | some href =>
        let story1 := dset (dset story0 "headline" (Val.vStr (pyStrip a.text)))
          "url" (Val.vStr (urljoin dsBaseUrl href))
        some (some (dsTimeUpdate card.time (dsHeroUpdate card.imageDiv story1)))
      | none => none
    | none => some none
  | none => some none

theorem dget_dsHeroUpdate_headline (idiv : Option DsImageDiv)
    (story : PyDict) :
    dget (dsHeroUpdate idiv story) "headline" = dget story "headline" := by
  unfold dsHeroUpdate
  rcases idiv with - | ⟨da⟩
  · rfl
  · rcases da with - | ⟨dp⟩
    · rfl
    · rcases dp with - | ⟨di⟩
      · rfl
      · rcases di with - | ⟨ds⟩
        · rfl
        · rcases ds with - | s
          · rfl
          · by_cases hs : s.data.isEmpty
            · simp [hs]
            · simp only [hs, Bool.false_eq_true, if_false]
              exact dget_dset_other story "hero_image_url" "headline"
                (Val.vStr s) (by decide)

theorem dget_dsTimeUpdate_headline (t : Option DsTimeTag) (story : PyDict) :
    dget (dsTimeUpdate t story) "headline" = dget story "headline" := by
  unfold dsTimeUpdate
  cases t with
  | none => rfl
  | some tt =>
    exact dget_dset_other story "last_published_at" "headline"
      (Val.vStr (tt.datetime.getD "")) (by decide)

/-- Concrete urljoin collaborator used in closed statements. -/
def urljoinConcat : String → String → String :=
  fun base href => base ++ "/" ++ href

/-- A card whose title anchor exists but carries empty text. -/
def exEmptyTitleCard : DsCard :=
  { title := some { a := some { text := "", href := some "x" } },
    imageDiv := none, time := none }

/-- C8 counterexample: the Daily Star card extractor constructs a record
with an EMPTY headline when the title anchor is present but its text is
empty — extraction does not return absent, violating the non-empty-identity
invariant for the HTML-path normalizer. -/
theorem extractCardInfo_empty_headline :
    extractCardInfo "T" urljoinConcat exEmptyTitleCard =
      some (some
        [("headline", Val.vStr ""),
         ("url", Val.vStr "https://www.thedailystar.net/x"),
         ("hero_image_url", Val.vNone), ("last_published_at", Val.vNone),
         ("scraped_at", Val.vStr "T")]) ∧
    pyTruthy (Val.vStr "") = false := by
  refine ⟨by decide, by decide⟩

/-- C8 amended: the JSON-path normalizer (_extract_story_info) satisfies
the gate — every constructed record has truthy headline and slug, and a
missing or empty headline or slug yields absent, whatever the other fields
— but the HTML-path extractor (_extract_card_info) only checks PRESENCE of
the title anchor: whenever the anchor and its href exist it constructs a
record whose headline is the anchor's stripped text, even when empty. -/
theorem extraction_required_field_gate (now : String) :
    (∀ v r, extractStoryInfo now v = some r →
      ∃ h s, dget r "headline" = some h ∧ pyTruthy h = true ∧
        dget r "slug" = some s ∧ pyTruthy s = true) ∧
    (∀ sd : List (String × Val),
      (¬pyTruthy (dgetD sd "headline" Val.vNone) = true ∨
       ¬pyTruthy (dgetD sd "slug" Val.vNone) = true) →
      extractStoryInfo now (Val.vDict sd) = none) ∧
    (∀ (uj : String → String → String) (card : DsCard) (tt : DsTitleTag)
        (a : DsAnchor) (href : String),
      card.title = some tt → tt.a = some a → a.href = some href →
      ∃ story, extractCardInfo now uj card = some (some story) ∧
        dget story "headline" = some (Val.vStr (pyStrip a.text))) := by
  refine ⟨?_, ?_, ?_⟩
  · intro v r hr
    cases v with
    | vDict sd =>
      unfold extractStoryInfo at hr
      dsimp only at hr
      by_cases hc : ¬pyTruthy (dgetD sd "headline" Val.vNone) = true ∨
          ¬pyTruthy (dgetD sd "slug" Val.vNone) = true
      · rw [if_pos hc] at hr
        simp at hr
      · rw [if_neg hc] at hr
        push_neg at hc
        refine ⟨dgetD sd "headline" Val.vNone, dgetD sd "slug" Val.vNone,
          ?_, hc.1, ?_, hc.2⟩ <;>
          simp [← Option.some.inj hr, dget]
    | vNone => simp [extractStoryInfo] at hr
    | vStr s => simp [extractStoryInfo] at hr
    | vInt n => simp [extractStoryInfo] at hr
    | vBool b => simp [extractStoryInfo] at hr
    | vList xs => simp [extractStoryInfo] at hr
  · intro sd hc
    unfold extractStoryInfo
    dsimp only
    rw [if_pos hc]
  · intro uj card tt a href htt ha href_eq
    unfold extractCardInfo
    rw [htt]
    dsimp only
    rw [ha]
    dsimp only
    rw [href_eq]
    refine ⟨_, rfl, ?_⟩
    rw [dget_dsTimeUpdate_headline, dget_dsHeroUpdate_headline,
      dget_dset_other _ _ _ _ (by decide : "url" ≠ "headline"),
      dget_dset_self]

theorem extraction_required_field_gate_witness :
    (extractStoryInfo "T"
        (Val.vDict [("headline", Val.vStr ""), ("slug", Val.vStr "s1")]) =
      none) ∧
    (∃ story, extractCardInfo "T" urljoinConcat exEmptyTitleCard =
        some (some story) ∧
      dget story "headline" = some (Val.vStr (pyStrip ""))) :=
  ⟨(extraction_required_field_gate "T").2.1
      [("headline", Val.vStr ""), ("slug", Val.vStr "s1")] (by decide),
   (extraction_required_field_gate "T").2.2 urljoinConcat exEmptyTitleCard
      { a := some { text := "", href := some "x" } }
      { text := "", href := some "x" } "x" (by decide) (by decide)
      (by decide)⟩
